import Mathlib

/-!
CloudCosts: resource synchronisation, client loading and the Redis read path

A shallow embedding of three source files of the repository:

* `providers/tencent/tencent.go`  (`listOfSupportedServices`, `FetchResources`)
* `handlers/azure/redis_handler.go`  (`AzureHandler.RedisHandler`)
* `internal/config/load.go`  (`loadConfigFromFile`, `loadConfigFromBytes`, `Load`)

Calls into cloud SDKs, the cache and the store are parameters of the model.
A Go result pair `(value, err)` of such a call is an `Except Err value`:
an error comes without a usable value (a nil pointer where the value is a
pointer).  Observable effects (log lines, fetcher invocations, store writes,
HTTP responses) are recorded, in program order, in a trace.
-/

set_option autoImplicit false

namespace CloudCosts

/-! ## Shared data model -/

/-- A Go `error` value, identified by its message. -/
structure Err where
  msg : String
deriving DecidableEq

/-- Equality of Go result pairs is decidable when it is for errors and values. -/
instance instDecidableEqExcept {ε α : Type} [DecidableEq ε] [DecidableEq α] :
    DecidableEq (Except ε α)
  | Except.ok a, Except.ok b =>
    if h : a = b then isTrue (by rw [h]) else isFalse (fun h2 => h (Except.ok.inj h2))
  | Except.error a, Except.error b =>
    if h : a = b then isTrue (by rw [h]) else isFalse (fun h2 => h (Except.error.inj h2))
  | Except.ok _, Except.error _ => isFalse (fun h => Except.noConfusion h)
  | Except.error _, Except.ok _ => isFalse (fun h => Except.noConfusion h)

/-- Whether a Go result pair carries an error. -/
def failed {α : Type} : Except Err α → Bool
  | Except.error _ => true
  | Except.ok _ => false

/-- Tencent credential (`tccommon.Credential`): a secret id and key. -/
structure Credential where
  SecretID : String
  SecretKey : String
deriving DecidableEq

/-- Client profile (`profile.ClientProfile`); only `Language` is set by the code. -/
structure ClientProfile where
  Language : String
deriving DecidableEq

/-- A `tccvm.Client`: what `tccvm.NewClient(credential, region, cpf)` binds together. -/
structure TencentClient where
  credential : Credential
  region : String
  profile : ClientProfile
deriving DecidableEq

/-- Opaque AWS SDK configuration (`aws.Config`). -/
structure AWSClient where
  handle : Nat
deriving DecidableEq

/-- Opaque DigitalOcean client (`godo.Client`). -/
structure DigitalOceanClient where
  handle : Nat
deriving DecidableEq

/-- Opaque OCI configuration provider (`common.ConfigurationProvider`). -/
structure OciClient where
  handle : Nat
deriving DecidableEq

/-- Opaque Civo client (`civogo.Client`). -/
structure CivoClient where
  handle : Nat
deriving DecidableEq

/-- Opaque Kubernetes clientset (`kubernetes.Clientset`). -/
structure K8sClient where
  handle : Nat
deriving DecidableEq

/-- Opaque Linode client (`linodego.Client`). -/
structure LinodeClient where
  handle : Nat
deriving DecidableEq

/-- The client handle `providers.ProviderClient`: an account `Name` and one
pointer-like field per provider (`none` is Go's nil). -/
structure ProviderClient where
  AWSClient : Option AWSClient := none
  DigitalOceanClient : Option DigitalOceanClient := none
  OciClient : Option OciClient := none
  CivoClient : Option CivoClient := none
  K8sClient : Option K8sClient := none
  LinodeClient : Option LinodeClient := none
  TencentClient : Option TencentClient := none
  Name : String
deriving DecidableEq

/-- A normalised resource record (`models.Resource`): the identifier the store
is keyed by, the console link, and the remaining descriptive fields. -/
structure Resource where
  ResourceId : String
  Link : String
  Provider : String
  Service : String
  Region : String
  Metadata : String
deriving DecidableEq

/-! ## providers/tencent/tencent.go -/

/-- One entry of `regions.Response.RegionSet`; `Region` is a `*string`. -/
structure RegionInfo where
  Region : Option String
deriving DecidableEq

/-- A `providers.FetchDataFunction`: given the client handle it calls the
provider, so its result depends on the state `σ` of the outside world, which
it may change. -/
abbrev FetchDataFunction (σ : Type) := ProviderClient → σ → Except Err (List Resource) × σ

/-- The SDK entry points `FetchResources` calls.  `DescribeRegions` is a network
call; `NewClient` builds an in-memory client; `cvmInstances` is `cvm.Instances`. -/
structure TencentSdk (σ : Type) where
  DescribeRegions : TencentClient → σ → Except Err (List RegionInfo) × σ
  NewClient : Credential → String → ClientProfile → Except Err TencentClient
  cvmInstances : FetchDataFunction σ

/-- What `FetchResources` does that can be observed from outside. -/
inductive Event where
  /-- A line written by `log.Errorf`. -/
  | logError (line : String)
  /-- A line written by `log.Printf`. -/
  | logPrint (line : String)
  /-- The fetcher at position `k` of the registry was invoked with `handle`
  and returned `result`. -/
  | fetch (k : Nat) (handle : ProviderClient) (result : Except Err (List Resource))
  /-- The statement `INSERT ... ON CONFLICT (resource_id) DO UPDATE SET link = EXCLUDED.link`
  was issued for `resource`. -/
  | upsert (resource : Resource)
deriving DecidableEq

/-- How a Go function call ends: it returns, or it panics (here always a nil
pointer dereference). -/
inductive Outcome where
  | returned
  | panicked
deriving DecidableEq

/-- A finished run: how it ended, what it did, and the world it left. -/
structure Run (σ : Type) where
  outcome : Outcome
  trace : List Event
  world : σ

/-- `listOfSupportedServices`: the registry holds `cvm.Instances` only. -/
def listOfSupportedServices {σ : Type} (sdk : TencentSdk σ) : List (FetchDataFunction σ) :=
  [sdk.cvmInstances]

/-- The inner `for _, resource := range resources` of `FetchResources`: one
store write per resource; the result of `Exec` is discarded. -/
def upsertAll (resources : List Resource) : List Event :=
  resources.map Event.upsert

/-- The block `if err != nil { log.Errorf(...) }` that follows `tccvm.NewClient`
for the region `name`. -/
def logNewClient (client : ProviderClient) (name : String) : Except Err TencentClient → List Event
  | Except.error err =>
    [Event.logError ("[" ++ client.Name ++ "][Tencent] Couldn't create the Tencent client with region "
      ++ name ++ ": " ++ err.msg)]
  | Except.ok _ => []

/-- The block that follows the fetcher call: `if err != nil { log.Printf(...) }
else { for _, resource := range resources { ... } }`. -/
def handleFetched (client : ProviderClient) : Except Err (List Resource) → List Event
  | Except.error err => [Event.logPrint ("[" ++ client.Name ++ "][Tencent] " ++ err.msg)]
  | Except.ok resources => upsertAll resources

/-- The loop `for _, region := range regions.Response.RegionSet` of
`FetchResources`, for the fetcher `fetchResources` at registry position `k`.
Returns the run and the value the variable `client` holds afterwards. -/
def regionLoop {σ : Type} (sdk : TencentSdk σ) (k : Nat) (fetchResources : FetchDataFunction σ) :
    List RegionInfo → ProviderClient → σ → Run σ × ProviderClient
  | [], client, w => (⟨Outcome.returned, [], w⟩, client)
  | region :: rest, client, w =>
    -- client.TencentClient.GetCredential()
    match client.TencentClient with
    | none => (⟨Outcome.panicked, [], w⟩, client)
    | some tc =>
      -- *region.Region
      match region.Region with
      | none => (⟨Outcome.panicked, [], w⟩, client)
      | some name =>
        let cpf : ClientProfile := ⟨"en-US"⟩
        let built := sdk.NewClient tc.credential name cpf
        -- client.TencentClient = clientWithRegion
        let client1 : ProviderClient := { client with TencentClient := built.toOption }
        let fetched := fetchResources client1 w
        let next := regionLoop sdk k fetchResources rest client1 fetched.2
        (⟨next.1.outcome,
          logNewClient client name built ++ Event.fetch k client1 fetched.1
            :: handleFetched client1 fetched.1 ++ next.1.trace,
          next.1.world⟩, next.2)

/-- The loop `for _, fetchResources := range listOfSupportedServices()` of
`FetchResources`; `k` is the registry position of the head of the list. -/
def serviceLoop {σ : Type} (sdk : TencentSdk σ) :
    Nat → List (FetchDataFunction σ) → ProviderClient → σ → Run σ
  | _, [], _, w => ⟨Outcome.returned, [], w⟩
  | k, fetchResources :: rest, client, w =>
    -- client.TencentClient.DescribeRegionsWithContext(...)
    match client.TencentClient with
    | none => ⟨Outcome.panicked, [], w⟩
    | some tc =>
      let answer := sdk.DescribeRegions tc w
      match answer.1 with
      | Except.error err =>
        -- the error is logged, then regions.Response is read on the missing response
        ⟨Outcome.panicked,
          [Event.logError ("[" ++ client.Name ++ "][Tencent] Couldn't fetch the list of regions: " ++ err.msg)],
          answer.2⟩
      | Except.ok regionSet =>
        let inner := regionLoop sdk k fetchResources regionSet client answer.2
        match inner.1.outcome with
        | Outcome.panicked => inner.1
        | Outcome.returned =>
          let next := serviceLoop sdk (k + 1) rest inner.2 inner.1.world
          ⟨next.outcome, inner.1.trace ++ next.trace, next.world⟩

/-- `FetchResources(ctx, client, db)`. -/
def FetchResources {σ : Type} (sdk : TencentSdk σ) (client : ProviderClient) (w : σ) : Run σ :=
  serviceLoop sdk 0 (listOfSupportedServices sdk) client w

/-- The store writes of a trace, in the order they were issued. -/
def writes : List Event → List Resource
  | [] => []
  | Event.upsert r :: t => r :: writes t
  | _ :: t => writes t

/-- The fetcher invocations of a trace, in order: registry position, handle
passed, result returned. -/
def invocations : List Event → List (Nat × ProviderClient × Except Err (List Resource))
  | [] => []
  | Event.fetch k h r :: t => (k, h, r) :: invocations t
  | _ :: t => invocations t

/-- The resources an invocation contributes: those it returned, if it succeeded. -/
def returnedResources : Except Err (List Resource) → List Resource
  | Except.ok resources => resources
  | Except.error _ => []

/-- A region entry carrying the name `name`. -/
def RegionInfo.named (name : String) : RegionInfo := ⟨some name⟩

/-- Modelled from the spec: the store engine that executes the statement
`FetchResources` issues, `INSERT ... ON CONFLICT (resource_id) DO UPDATE SET link = EXCLUDED.link`,
is not part of the repository.  The store is a table of rows keyed by
`resource_id`: with no row of that key the resource is inserted; otherwise the
`link` of the conflicting row is replaced and nothing else changes. -/
def upsert (store : List Resource) (r : Resource) : List Resource :=
  if store.any (fun row => decide (row.ResourceId = r.ResourceId)) then
    store.map (fun row => if row.ResourceId = r.ResourceId then { row with Link := r.Link } else row)
  else
    store ++ [r]

/-! ## handlers/azure/redis_handler.go -/

/-- The cache interface held in `handler.cache`, over cache states `κ` and
payloads `ρ`: `Get` returns the value and whether it was found, `Set` stores. -/
structure CacheOps (κ ρ : Type) where
  Get : κ → String → Option ρ
  Set : κ → String → ρ → κ

/-- What one request to the handler does, in program order. -/
inductive HandlerEvent (ρ : Type) where
  /-- The call `respondWithError(w, code, message)`. -/
  | respondWithError (code : Nat) (message : String)
  /-- The call `respondWithJSON(w, code, payload)`. -/
  | respondWithJSON (code : Nat) (payload : ρ)
  /-- The call `handler.cache.Get(key)`. -/
  | cacheGet (key : String)
  /-- The call `handler.azure.DescribeRedisInstances(subscriptionID)`. -/
  | describeRedisInstances (subscriptionID : String)
  /-- The call `handler.cache.Set(key, payload)`. -/
  | cacheSet (key : String) (payload : ρ)
deriving DecidableEq

/-- The constant `http.StatusInternalServerError`. -/
def StatusInternalServerError : Nat := 500

/-- The cache key `fmt.Sprintf("azure.%s.storage.redis", subscriptionID)`. -/
def redisKey (subscriptionID : String) : String :=
  "azure." ++ subscriptionID ++ ".storage.redis"

/-- What one request meets outside the handler: the result of
`config.ParseEnvironment()`, the value of `config.SubscriptionID()`, and the
behaviour of `handler.azure.DescribeRedisInstances`. -/
structure Request (ρ : Type) where
  ParseEnvironment : Option Err
  SubscriptionID : String
  DescribeRedisInstances : String → Except Err ρ

/-- `(handler *AzureHandler) RedisHandler(w, r)`: the calls it makes, in order,
and the cache it leaves. -/
def RedisHandler {κ ρ : Type} (cache : CacheOps κ ρ) (req : Request ρ) (c : κ) :
    List (HandlerEvent ρ) × κ :=
  let first : List (HandlerEvent ρ) :=
    match req.ParseEnvironment with
    | some _ => [HandlerEvent.respondWithError StatusInternalServerError "Couldn't parse environment"]
    | none => []
  let subscriptionID := req.SubscriptionID
  let key := redisKey subscriptionID
  match cache.Get c key with
  | some response =>
    (first ++ [HandlerEvent.cacheGet key, HandlerEvent.respondWithJSON 200 response], c)
  | none =>
    match req.DescribeRedisInstances subscriptionID with
    | Except.error _ =>
      (first ++ [HandlerEvent.cacheGet key, HandlerEvent.describeRedisInstances subscriptionID,
        HandlerEvent.respondWithError StatusInternalServerError "DB:DescribeRedis is missing"], c)
    | Except.ok response =>
      (first ++ [HandlerEvent.cacheGet key, HandlerEvent.describeRedisInstances subscriptionID,
        HandlerEvent.cacheSet key response, HandlerEvent.respondWithJSON 200 response],
        cache.Set c key response)

/-- A sequence of requests served one after the other on the same cache. -/
def serve {κ ρ : Type} (cache : CacheOps κ ρ) : List (Request ρ) → κ →
    List (List (HandlerEvent ρ)) × κ
  | [], c => ([], c)
  | req :: rest, c =>
    let done := RedisHandler cache req c
    let later := serve cache rest done.2
    (done.1 :: later.1, later.2)

/-- The responses written during a request, in order. -/
def responses {ρ : Type} : List (HandlerEvent ρ) → List (HandlerEvent ρ)
  | [] => []
  | HandlerEvent.respondWithError code m :: t => HandlerEvent.respondWithError code m :: responses t
  | HandlerEvent.respondWithJSON code p :: t => HandlerEvent.respondWithJSON code p :: responses t
  | _ :: t => responses t

/-- A cache over association lists: `Set` puts the entry in front, `Get`
returns the first entry of the key. -/
def listCache (ρ : Type) : CacheOps (List (String × ρ)) ρ where
  Get := fun c key => (c.find? (fun e => decide (e.1 = key))).map (fun e => e.2)
  Set := fun c key v => (key, v) :: c

/-! ## internal/config/load.go -/

/-- An entry of the `AWS` section (`models.AWSConfig`). -/
structure AWSConfig where
  Name : String
  Profile : String
  Path : String
  Source : String
deriving DecidableEq

/-- An entry of the `DigitalOcean` section. -/
structure DigitalOceanConfig where
  Name : String
  Token : String
deriving DecidableEq

/-- An entry of the `Oci` section. -/
structure OciConfig where
  Name : String
  Source : String
deriving DecidableEq

/-- An entry of the `Civo` section. -/
structure CivoConfig where
  Name : String
  Token : String
deriving DecidableEq

/-- An entry of the `Kubernetes` section. -/
structure KubernetesConfig where
  Name : String
  Path : String
deriving DecidableEq

/-- An entry of the `Linode` section. -/
structure LinodeConfig where
  Name : String
  Token : String
deriving DecidableEq

/-- An entry of the `Tencent` section. -/
structure TencentConfig where
  Name : String
  SecretID : String
  SecretKey : String
deriving DecidableEq

/-- The `Postgres` store descriptor. -/
structure PostgresConfig where
  URI : String
deriving DecidableEq

/-- The `SQLite` store descriptor. -/
structure SQLiteConfig where
  File : String
deriving DecidableEq

/-- The parsed configuration (`models.Config`), as far as `Load` reads it. -/
structure Config where
  AWS : List AWSConfig
  DigitalOcean : List DigitalOceanConfig
  Oci : List OciConfig
  Civo : List CivoConfig
  Kubernetes : List KubernetesConfig
  Linode : List LinodeConfig
  Tencent : List TencentConfig
  Postgres : PostgresConfig
  SQLite : SQLiteConfig
deriving DecidableEq

/-- The options passed to `awsConfig.LoadDefaultConfig`: the argument of
`WithSharedConfigProfile` and of `WithSharedCredentialsFiles`, when given. -/
structure LoadOptions where
  SharedConfigProfile : Option String
  SharedCredentialsFiles : Option (List String)
deriving DecidableEq

/-- Opaque Kubernetes REST configuration (`rest.Config`). -/
structure RestConfig where
  handle : Nat
deriving DecidableEq

/-- The file system, the TOML decoder and the SDK constructors `Load` calls.
The constructors build in-memory clients from their arguments. -/
structure LoadSdk where
  /-- Function `filepath.Abs`. -/
  Abs : String → Except Err String
  /-- Whether `os.Stat(filename)` fails with `os.ErrNotExist`. -/
  StatNotExist : String → Bool
  /-- Function `ioutil.ReadFile`. -/
  ReadFile : String → Except Err String
  /-- Function `toml.Unmarshal` into a `Config`. -/
  Unmarshal : String → Except Err Config
  /-- Function `awsConfig.LoadDefaultConfig`. -/
  LoadDefaultConfig : LoadOptions → Except Err AWSClient
  /-- Function `godo.NewFromToken`. -/
  NewFromToken : String → DigitalOceanClient
  /-- Function `common.DefaultConfigProvider`. -/
  DefaultConfigProvider : OciClient
  /-- Function `civogo.NewClient(token, region)`. -/
  CivoNewClient : String → String → Except Err CivoClient
  /-- Deferred-loading `ClientConfig()` for an explicit kubeconfig path. -/
  ClientConfig : String → Except Err RestConfig
  /-- Function `kubernetes.NewForConfig`. -/
  NewForConfig : RestConfig → Except Err K8sClient
  /-- Function `linodego.NewClient` over an OAuth2 transport for the token. -/
  LinodeNewClient : String → LinodeClient
  /-- The constant `regions.Frankfurt`. -/
  Frankfurt : String
  /-- Function `tccvm.NewClient`. -/
  TencentNewClient : Credential → String → ClientProfile → Except Err TencentClient

/-- `loadConfigFromBytes`. -/
def loadConfigFromBytes (sdk : LoadSdk) (b : String) : Except Err Config :=
  match sdk.Unmarshal b with
  | Except.error err => Except.error err
  | Except.ok config => Except.ok config

/-- `loadConfigFromFile`. -/
def loadConfigFromFile (sdk : LoadSdk) (path : String) : Except Err Config :=
  match sdk.Abs path with
  | Except.error err => Except.error err
  | Except.ok filename =>
    if sdk.StatNotExist filename then
      Except.error ⟨"no such file " ++ filename⟩
    else
      match sdk.ReadFile filename with
      | Except.error err => Except.error err
      | Except.ok yamlFile => loadConfigFromBytes sdk yamlFile

/-- How an account loop of `Load` is left early: by `return nil, nil, err`, or
by `log.Fatal(err)`, which ends the process. -/
inductive Stop where
  | returned (err : Err)
  | exited (err : Err)
deriving DecidableEq

/-- The loop `for _, account := range config.AWS`. -/
def awsLoop (sdk : LoadSdk) : List AWSConfig → List ProviderClient → Except Stop (List ProviderClient)
  | [], clients => Except.ok clients
  | account :: rest, clients =>
    if account.Source = "CREDENTIALS_FILE" then
      if account.Path.length > 0 then
        match sdk.LoadDefaultConfig ⟨some account.Profile, some [account.Path]⟩ with
        | Except.error err => Except.error (Stop.returned err)
        | Except.ok cfg => awsLoop sdk rest (clients ++ [{ AWSClient := some cfg, Name := account.Name }])
      else
        match sdk.LoadDefaultConfig ⟨some account.Profile, none⟩ with
        | Except.error err => Except.error (Stop.returned err)
        | Except.ok cfg => awsLoop sdk rest (clients ++ [{ AWSClient := some cfg, Name := account.Name }])
    else if account.Source = "ENVIRONMENT_VARIABLES" then
      match sdk.LoadDefaultConfig ⟨none, none⟩ with
      | Except.error err => Except.error (Stop.exited err)
      | Except.ok cfg => awsLoop sdk rest (clients ++ [{ AWSClient := some cfg, Name := account.Name }])
    else
      awsLoop sdk rest clients

/-- The loop `for _, account := range config.DigitalOcean`. -/
def digitalOceanLoop (sdk : LoadSdk) : List DigitalOceanConfig → List ProviderClient →
    Except Stop (List ProviderClient)
  | [], clients => Except.ok clients
  | account :: rest, clients =>
    let client := sdk.NewFromToken account.Token
    digitalOceanLoop sdk rest (clients ++ [{ DigitalOceanClient := some client, Name := account.Name }])

/-- The loop `for _, account := range config.Oci`. -/
def ociLoop (sdk : LoadSdk) : List OciConfig → List ProviderClient → Except Stop (List ProviderClient)
  | [], clients => Except.ok clients
  | account :: rest, clients =>
    if account.Source = "CREDENTIALS_FILE" then
      let client := sdk.DefaultConfigProvider
      ociLoop sdk rest (clients ++ [{ OciClient := some client, Name := account.Name }])
    else
      ociLoop sdk rest clients

/-- The loop `for _, account := range config.Civo`. -/
def civoLoop (sdk : LoadSdk) : List CivoConfig → List ProviderClient → Except Stop (List ProviderClient)
  | [], clients => Except.ok clients
  | account :: rest, clients =>
    match sdk.CivoNewClient account.Token "LON1" with
    | Except.error err => Except.error (Stop.exited err)
    | Except.ok client => civoLoop sdk rest (clients ++ [{ CivoClient := some client, Name := account.Name }])

/-- The loop `for _, account := range config.Kubernetes`. -/
def kubernetesLoop (sdk : LoadSdk) : List KubernetesConfig → List ProviderClient →
    Except Stop (List ProviderClient)
  | [], clients => Except.ok clients
  | account :: rest, clients =>
    match sdk.ClientConfig account.Path with
    | Except.error err => Except.error (Stop.exited err)
    | Except.ok kubeConfig =>
      match sdk.NewForConfig kubeConfig with
      | Except.error err => Except.error (Stop.exited err)
      | Except.ok client =>
        kubernetesLoop sdk rest (clients ++ [{ K8sClient := some client, Name := account.Name }])

/-- The loop `for _, account := range config.Linode`. -/
def linodeLoop (sdk : LoadSdk) : List LinodeConfig → List ProviderClient → Except Stop (List ProviderClient)
  | [], clients => Except.ok clients
  | account :: rest, clients =>
    let client := sdk.LinodeNewClient account.Token
    linodeLoop sdk rest (clients ++ [{ LinodeClient := some client, Name := account.Name }])

/-- The loop `for _, account := range config.Tencent`. -/
def tencentLoop (sdk : LoadSdk) : List TencentConfig → List ProviderClient →
    Except Stop (List ProviderClient)
  | [], clients => Except.ok clients
  | account :: rest, clients =>
    let credential : Credential := ⟨account.SecretID, account.SecretKey⟩
    let cpf : ClientProfile := ⟨"en-US"⟩
    match sdk.TencentNewClient credential sdk.Frankfurt cpf with
    | Except.error err => Except.error (Stop.exited err)
    | Except.ok client =>
      tencentLoop sdk rest (clients ++ [{ TencentClient := some client, Name := account.Name }])

/-- A provider section of `Load`: `if len(accounts) > 0 { for ... }`. -/
def providerSection {α : Type} (loop : List α → List ProviderClient → Except Stop (List ProviderClient))
    (accounts : List α) (clients : List ProviderClient) : Except Stop (List ProviderClient) :=
  if accounts.length > 0 then loop accounts clients else Except.ok clients

/-- The body of `Load` from `clients := make(...)` up to the final `return`:
the seven provider sections in source order. -/
def buildClients (sdk : LoadSdk) (config : Config) : Except Stop (List ProviderClient) :=
  providerSection (awsLoop sdk) config.AWS [] >>= fun c1 =>
  providerSection (digitalOceanLoop sdk) config.DigitalOcean c1 >>= fun c2 =>
  providerSection (ociLoop sdk) config.Oci c2 >>= fun c3 =>
  providerSection (civoLoop sdk) config.Civo c3 >>= fun c4 =>
  providerSection (kubernetesLoop sdk) config.Kubernetes c4 >>= fun c5 =>
  providerSection (linodeLoop sdk) config.Linode c5 >>= fun c6 =>
  providerSection (tencentLoop sdk) config.Tencent c6

/-- How a call of `Load` ends: `return config, clients, nil`, or
`return nil, nil, err`, or the process exits in `log.Fatal(err)`. -/
inductive LoadResult where
  | ok (config : Config) (clients : List ProviderClient)
  | error (err : Err)
  | fatal (err : Err)
deriving DecidableEq

/-- `Load(configPath)`. -/
def Load (sdk : LoadSdk) (configPath : String) : LoadResult :=
  match loadConfigFromFile sdk configPath with
  | Except.error err => LoadResult.error err
  | Except.ok config =>
    if config.SQLite.File.length = 0 ∧ config.Postgres.URI = "" then
      LoadResult.error ⟨"postgres URI or sqlite file is missing"⟩
    else
      match buildClients sdk config with
      | Except.error (Stop.returned err) => LoadResult.error err
      | Except.error (Stop.exited err) => LoadResult.fatal err
      | Except.ok clients => LoadResult.ok config clients

/-- The number of account entries of a configuration, over all provider sections. -/
def accountCount (config : Config) : Nat :=
  config.AWS.length + config.DigitalOcean.length + config.Oci.length + config.Civo.length
    + config.Kubernetes.length + config.Linode.length + config.Tencent.length

/-- Whether `Load` knows the authentication source of an AWS entry. -/
def AWSConfig.recognised (account : AWSConfig) : Bool :=
  decide (account.Source = "CREDENTIALS_FILE") || decide (account.Source = "ENVIRONMENT_VARIABLES")

/-- Whether `Load` knows the authentication source of an OCI entry. -/
def OciConfig.recognised (account : OciConfig) : Bool :=
  decide (account.Source = "CREDENTIALS_FILE")

/-- The names of the accounts with a recognised authentication source, in
section order: every entry of the other five sections, and the recognised
entries of the AWS and OCI sections. -/
def recognisedNames (config : Config) : List String :=
  (config.AWS.filter AWSConfig.recognised).map (fun a => a.Name)
    ++ config.DigitalOcean.map (fun a => a.Name)
    ++ (config.Oci.filter OciConfig.recognised).map (fun a => a.Name)
    ++ config.Civo.map (fun a => a.Name)
    ++ config.Kubernetes.map (fun a => a.Name)
    ++ config.Linode.map (fun a => a.Name)
    ++ config.Tencent.map (fun a => a.Name)

/-- The number of provider clients a handle carries. -/
def ProviderClient.clientCount (h : ProviderClient) : Nat :=
  (if h.AWSClient.isSome then 1 else 0) + (if h.DigitalOceanClient.isSome then 1 else 0)
    + (if h.OciClient.isSome then 1 else 0) + (if h.CivoClient.isSome then 1 else 0)
    + (if h.K8sClient.isSome then 1 else 0) + (if h.LinodeClient.isSome then 1 else 0)
    + (if h.TencentClient.isSome then 1 else 0)

/-- Whether building the client of an AWS entry fails. -/
def AWSConfig.buildFails (sdk : LoadSdk) (account : AWSConfig) : Bool :=
  if account.Source = "CREDENTIALS_FILE" then
    if account.Path.length > 0 then
      failed (sdk.LoadDefaultConfig ⟨some account.Profile, some [account.Path]⟩)
    else failed (sdk.LoadDefaultConfig ⟨some account.Profile, none⟩)
  else if account.Source = "ENVIRONMENT_VARIABLES" then failed (sdk.LoadDefaultConfig ⟨none, none⟩)
  else false

/-- Whether building the client of a Kubernetes entry fails. -/
def KubernetesConfig.buildFails (sdk : LoadSdk) (account : KubernetesConfig) : Bool :=
  match sdk.ClientConfig account.Path with
  | Except.error _ => true
  | Except.ok kubeConfig => failed (sdk.NewForConfig kubeConfig)

/-- Whether building the client of some configured account fails. -/
def someBuildFails (sdk : LoadSdk) (config : Config) : Bool :=
  config.AWS.any (AWSConfig.buildFails sdk)
    || config.Civo.any (fun a => failed (sdk.CivoNewClient a.Token "LON1"))
    || config.Kubernetes.any (KubernetesConfig.buildFails sdk)
    || config.Tencent.any (fun a =>
        failed (sdk.TencentNewClient ⟨a.SecretID, a.SecretKey⟩ sdk.Frankfurt ⟨"en-US"⟩))

/-- Whether a configuration has a store descriptor: a SQLite file or a Postgres URI. -/
def hasStore (config : Config) : Bool :=
  !(decide (config.SQLite.File.length = 0) && decide (config.Postgres.URI = ""))

/-! ## Worked inputs -/

/-- A Tencent account handle named `prod`, as `Load` builds it. -/
def prodClient : ProviderClient :=
  { TencentClient := some ⟨⟨"AKID", "secret"⟩, "eu-frankfurt", ⟨"en-US"⟩⟩, Name := "prod" }

/-- The two instances a fetcher finds in the region its handle is bound to. -/
def twoInstances (h : ProviderClient) : List Resource :=
  match h.TencentClient with
  | none => []
  | some tc =>
    [⟨tc.region ++ "/ins-1", "https://console/ins-1", "Tencent", "CVM", tc.region, ""⟩,
     ⟨tc.region ++ "/ins-2", "https://console/ins-2", "Tencent", "CVM", tc.region, ""⟩]

/-- An SDK over a world that counts the fetcher calls made so far: two regions
are enumerated, client construction succeeds, and the fetcher fails on its
first call (world `0`) and finds two instances on every later call. -/
def countingSdk : TencentSdk Nat where
  DescribeRegions := fun _ n =>
    (Except.ok [RegionInfo.named "ap-guangzhou", RegionInfo.named "ap-shanghai"], n)
  NewClient := fun cred r cpf => Except.ok ⟨cred, r, cpf⟩
  cvmInstances := fun h n =>
    (if n = 0 then Except.error ⟨"RequestLimitExceeded"⟩ else Except.ok (twoInstances h), n + 1)

/-- An SDK whose region enumeration fails. -/
def noRegionsSdk : TencentSdk Nat where
  DescribeRegions := fun _ n => (Except.error ⟨"AuthFailure"⟩, n)
  NewClient := fun cred r cpf => Except.ok ⟨cred, r, cpf⟩
  cvmInstances := fun h n => (Except.ok (twoInstances h), n + 1)

/-- A request of subscription `sub123` whose environment parses and whose
aggregate query answers `payload`. -/
def goodRequest (payload : String) : Request String :=
  ⟨none, "sub123", fun _ => Except.ok payload⟩

/-- A request of subscription `sub123` whose environment parses and whose
aggregate query fails. -/
def failingRequest : Request String :=
  ⟨none, "sub123", fun _ => Except.error ⟨"connection refused"⟩⟩

/-- A request on which `config.ParseEnvironment` fails; the aggregate query
would answer `payload`. -/
def unparsedRequest (payload : String) : Request String :=
  ⟨some ⟨"AZURE_SUBSCRIPTION_ID is not set"⟩, "sub123", fun _ => Except.ok payload⟩

/-- What an account loop of `Load`, started with the handles `clients`, has to
do given whether some client construction fails (`fails`) and the names of the
accounts it builds a client for (`names`): stop early in the first case, and
otherwise append one handle per name, in order, each with exactly one client. -/
def LoopSpec (result : Except Stop (List ProviderClient)) (clients : List ProviderClient)
    (fails : Bool) (names : List String) : Prop :=
  (fails = true → ∃ stop, result = Except.error stop)
  ∧ (fails = false → ∃ added : List ProviderClient,
      result = Except.ok (clients ++ added)
      ∧ added.map (fun h => h.Name) = names
      ∧ ∀ h ∈ added, h.clientCount = 1)

/-- A configuration with a SQLite store and the given AWS, OCI and Civo entries. -/
def sqliteConfig (aws : List AWSConfig) (oci : List OciConfig) (civo : List CivoConfig) : Config :=
  { AWS := aws, DigitalOcean := [⟨"do-main", "dop_v1_token"⟩], Oci := oci, Civo := civo,
    Kubernetes := [], Linode := [], Tencent := [], Postgres := ⟨""⟩, SQLite := ⟨"komiser.db"⟩ }

/-- An AWS entry whose credentials file cannot be loaded. -/
def brokenAws : AWSConfig := ⟨"aws-broken", "default", "/missing/credentials", "CREDENTIALS_FILE"⟩

/-- An AWS entry that reads the environment. -/
def envAws : AWSConfig := ⟨"aws-env", "", "", "ENVIRONMENT_VARIABLES"⟩

/-- A file system and SDK for the examples: the file name selects the parsed
configuration; loading the credentials file `/missing/credentials` and the
Civo token `expired` fail, every other construction succeeds. -/
def exampleLoadSdk : LoadSdk where
  Abs := fun path => Except.ok ("/etc/komiser/" ++ path)
  StatNotExist := fun _ => false
  ReadFile := fun filename => Except.ok filename
  Unmarshal := fun b =>
    if b = "/etc/komiser/unknown-source.toml" then
      Except.ok (sqliteConfig [⟨"aws-role", "", "", "IAM_ROLE"⟩] [⟨"oci-key", "API_KEY"⟩] [])
    else if b = "/etc/komiser/broken-first.toml" then
      Except.ok (sqliteConfig [brokenAws, envAws] [] [])
    else if b = "/etc/komiser/broken-last.toml" then
      Except.ok (sqliteConfig [envAws, brokenAws] [] [])
    else if b = "/etc/komiser/civo-expired.toml" then
      Except.ok (sqliteConfig [envAws] [] [⟨"civo-main", "expired"⟩])
    else
      Except.ok (sqliteConfig [envAws] [⟨"oci-file", "CREDENTIALS_FILE"⟩] [⟨"civo-main", "token"⟩])
  LoadDefaultConfig := fun options =>
    if options.SharedCredentialsFiles = some ["/missing/credentials"] then
      Except.error ⟨"failed to load shared credentials file"⟩
    else Except.ok ⟨1⟩
  NewFromToken := fun _ => ⟨2⟩
  DefaultConfigProvider := ⟨3⟩
  CivoNewClient := fun token _ =>
    if token = "expired" then Except.error ⟨"civo: invalid token"⟩ else Except.ok ⟨4⟩
  ClientConfig := fun _ => Except.ok ⟨5⟩
  NewForConfig := fun _ => Except.ok ⟨6⟩
  LinodeNewClient := fun _ => ⟨7⟩
  Frankfurt := "eu-frankfurt"
  TencentNewClient := fun cred r cpf => Except.ok ⟨cred, r, cpf⟩

/-! ## Lemmas on traces -/

@[simp]
theorem writes_append (a b : List Event) : writes (a ++ b) = writes a ++ writes b := by
  induction a with
  | nil => rfl
  | cons e t ih => cases e <;> simp [writes, ih]

@[simp]
theorem invocations_append (a b : List Event) :
    invocations (a ++ b) = invocations a ++ invocations b := by
  induction a with
  | nil => rfl
  | cons e t ih => cases e <;> simp [invocations, ih]

@[simp]
theorem writes_upsertAll (rs : List Resource) : writes (upsertAll rs) = rs := by
  induction rs with
  | nil => rfl
  | cons r t ih =>
    simp only [upsertAll, List.map_cons, writes] at ih ⊢
    rw [ih]

@[simp]
theorem invocations_upsertAll (rs : List Resource) : invocations (upsertAll rs) = [] := by
  induction rs with
  | nil => rfl
  | cons r t ih =>
    simp only [upsertAll, List.map_cons, invocations] at ih ⊢
    exact ih

@[simp]
theorem writes_logNewClient (client : ProviderClient) (name : String)
    (built : Except Err TencentClient) : writes (logNewClient client name built) = [] := by
  cases built <;> rfl

@[simp]
theorem invocations_logNewClient (client : ProviderClient) (name : String)
    (built : Except Err TencentClient) : invocations (logNewClient client name built) = [] := by
  cases built <;> rfl

@[simp]
theorem writes_handleFetched (client : ProviderClient) (res : Except Err (List Resource)) :
    writes (handleFetched client res) = returnedResources res := by
  cases res with
  | error e => rfl
  | ok rs => exact writes_upsertAll rs

@[simp]
theorem invocations_handleFetched (client : ProviderClient)
    (res : Except Err (List Resource)) : invocations (handleFetched client res) = [] := by
  cases res with
  | error e => rfl
  | ok rs => exact invocations_upsertAll rs

/-- In every run of the region loop the store writes are the resources of the
successful invocations, in invocation order. -/
theorem regionLoop_writes {σ : Type} (sdk : TencentSdk σ) (k : Nat) (f : FetchDataFunction σ) :
    ∀ (regions : List RegionInfo) (client : ProviderClient) (w : σ),
      writes (regionLoop sdk k f regions client w).1.trace
        = (invocations (regionLoop sdk k f regions client w).1.trace).flatMap
            (fun i => returnedResources i.2.2) := by
  intro regions
  induction regions with
  | nil => intro client w; rfl
  | cons region rest ih =>
    intro client w
    cases hc : client.TencentClient with
    | none => simp [regionLoop, hc, writes, invocations]
    | some tc =>
      cases hr : region.Region with
      | none => simp [regionLoop, hc, hr, writes, invocations]
      | some name =>
        simp [regionLoop, hc, hr, writes, invocations, ih]

/-- In every run of the service loop the store writes are the resources of the
successful invocations, in invocation order. -/
theorem serviceLoop_writes {σ : Type} (sdk : TencentSdk σ) :
    ∀ (fs : List (FetchDataFunction σ)) (k : Nat) (client : ProviderClient) (w : σ),
      writes (serviceLoop sdk k fs client w).trace
        = (invocations (serviceLoop sdk k fs client w).trace).flatMap
            (fun i => returnedResources i.2.2) := by
  intro fs
  induction fs with
  | nil => intro k client w; rfl
  | cons f rest ih =>
    intro k client w
    cases hc : client.TencentClient with
    | none => simp [serviceLoop, hc, writes, invocations]
    | some tc =>
      cases ha : (sdk.DescribeRegions tc w).1 with
      | error e => simp [serviceLoop, hc, ha, writes, invocations]
      | ok regionSet =>
        cases ho : (regionLoop sdk k f regionSet client (sdk.DescribeRegions tc w).2).1.outcome with
        | panicked =>
          simp only [serviceLoop, hc, ha, ho]
          exact regionLoop_writes sdk k f regionSet client _
        | returned =>
          simp only [serviceLoop, hc, ha, ho, writes_append, invocations_append,
            List.flatMap_append, ih]
          rw [regionLoop_writes]

/-- When client construction never fails, the region loop returns after one
invocation per region. -/
theorem regionLoop_count {σ : Type} (sdk : TencentSdk σ) (k : Nat) (f : FetchDataFunction σ)
    (hnew : ∀ cred r cpf, failed (sdk.NewClient cred r cpf) = false) :
    ∀ (names : List String) (client : ProviderClient) (w : σ), client.TencentClient.isSome = true →
      (regionLoop sdk k f (names.map RegionInfo.named) client w).1.outcome = Outcome.returned
      ∧ (invocations (regionLoop sdk k f (names.map RegionInfo.named) client w).1.trace).length
          = names.length := by
  intro names
  induction names with
  | nil => intro client w _; exact ⟨rfl, rfl⟩
  | cons name rest ih =>
    intro client w hsome
    cases hc : client.TencentClient with
    | none => rw [hc] at hsome; exact absurd hsome (by decide)
    | some tc =>
      cases hb : sdk.NewClient tc.credential name ⟨"en-US"⟩ with
      | error e =>
        have h := hnew tc.credential name ⟨"en-US"⟩
        rw [hb] at h
        simp [failed] at h
      | ok built =>
        have step := ih { client with TencentClient := some built }
          (f { client with TencentClient := some built } w).2 rfl
        simp [regionLoop, hc, hb, RegionInfo.named, Except.toOption, invocations] at step ⊢
        exact step

/-- When client construction returns the client bound to the requested
credential, region and profile, the region loop returns after invoking the
fetcher once per region, in order, each time with the account handle re-scoped
to that region. -/
theorem regionLoop_handles {σ : Type} (sdk : TencentSdk σ) (k : Nat) (f : FetchDataFunction σ)
    (hnew : ∀ cred r cpf, sdk.NewClient cred r cpf = Except.ok ⟨cred, r, cpf⟩) :
    ∀ (names : List String) (client : ProviderClient) (tc : TencentClient) (w : σ),
      client.TencentClient = some tc →
      (regionLoop sdk k f (names.map RegionInfo.named) client w).1.outcome = Outcome.returned
      ∧ (invocations (regionLoop sdk k f (names.map RegionInfo.named) client w).1.trace).map
            (fun i => (i.1, i.2.1))
          = names.map (fun r =>
              (k, { client with TencentClient := some ⟨tc.credential, r, ⟨"en-US"⟩⟩ })) := by
  intro names
  induction names with
  | nil => intro client tc w _; exact ⟨rfl, rfl⟩
  | cons name rest ih =>
    intro client tc w hc
    have step := ih { client with TencentClient := some ⟨tc.credential, name, ⟨"en-US"⟩⟩ }
      ⟨tc.credential, name, ⟨"en-US"⟩⟩
      (f { client with TencentClient := some ⟨tc.credential, name, ⟨"en-US"⟩⟩ } w).2 rfl
    simp [regionLoop, hc, hnew, RegionInfo.named, Except.toOption, invocations] at step ⊢
    exact step

/-! ## providers/tencent/tencent.go: the claims -/

/-- C1. When the region enumeration of `FetchResources` succeeds, then for every
behaviour of the fetcher invocations the store writes issued are exactly the
resources returned by the invocations that succeeded, each once, in invocation
order (an invocation that returned an error contributes nothing); and, client
construction not failing, `FetchResources` returns after one invocation per
enumerated region whatever the invocations returned, so an erroring
invocation stops neither the later invocations nor their writes. -/
theorem fetchResources_writes_successful_results {σ : Type} (sdk : TencentSdk σ)
    (client : ProviderClient) (tc : TencentClient) (names : List String) (w : σ)
    (hclient : client.TencentClient = some tc)
    (henum : (sdk.DescribeRegions tc w).1 = Except.ok (names.map RegionInfo.named)) :
    writes (FetchResources sdk client w).trace
        = (invocations (FetchResources sdk client w).trace).flatMap
            (fun i => returnedResources i.2.2)
    ∧ ((∀ cred r cpf, failed (sdk.NewClient cred r cpf) = false) →
        (FetchResources sdk client w).outcome = Outcome.returned
        ∧ (invocations (FetchResources sdk client w).trace).length = names.length) := by
  refine ⟨serviceLoop_writes sdk _ 0 client w, fun hnew => ?_⟩
  have hsome : client.TencentClient.isSome = true := by rw [hclient]; rfl
  have h := regionLoop_count sdk 0 sdk.cvmInstances hnew names client (sdk.DescribeRegions tc w).2 hsome
  obtain ⟨h1, h2⟩ := h
  simp [FetchResources, listOfSupportedServices, serviceLoop, hclient, henum, h1, h2]

/-- C1, at a concrete input: two regions, the first invocation fails, the two
resources of the second region are still written. -/
theorem fetchResources_writes_successful_results_witness :
    prodClient.TencentClient = some ⟨⟨"AKID", "secret"⟩, "eu-frankfurt", ⟨"en-US"⟩⟩
    ∧ (countingSdk.DescribeRegions ⟨⟨"AKID", "secret"⟩, "eu-frankfurt", ⟨"en-US"⟩⟩ 0).1
        = Except.ok (["ap-guangzhou", "ap-shanghai"].map RegionInfo.named)
    ∧ writes (FetchResources countingSdk prodClient 0).trace
        = (invocations (FetchResources countingSdk prodClient 0).trace).flatMap
            (fun i => returnedResources i.2.2)
    ∧ (FetchResources countingSdk prodClient 0).outcome = Outcome.returned
    ∧ (invocations (FetchResources countingSdk prodClient 0).trace).length
        = ["ap-guangzhou", "ap-shanghai"].length :=
  ⟨rfl, rfl,
    (fetchResources_writes_successful_results countingSdk prodClient _
      ["ap-guangzhou", "ap-shanghai"] 0 rfl rfl).1,
    (fetchResources_writes_successful_results countingSdk prodClient _
      ["ap-guangzhou", "ap-shanghai"] 0 rfl rfl).2 (fun _ _ _ => rfl)⟩

/-- The scenario of C1 with no failure: two regions with two resources each
give four store writes. -/
theorem fetchResources_two_regions_four_writes :
    writes (FetchResources countingSdk prodClient 1).trace
      = [⟨"ap-guangzhou/ins-1", "https://console/ins-1", "Tencent", "CVM", "ap-guangzhou", ""⟩,
         ⟨"ap-guangzhou/ins-2", "https://console/ins-2", "Tencent", "CVM", "ap-guangzhou", ""⟩,
         ⟨"ap-shanghai/ins-1", "https://console/ins-1", "Tencent", "CVM", "ap-shanghai", ""⟩,
         ⟨"ap-shanghai/ins-2", "https://console/ins-2", "Tencent", "CVM", "ap-shanghai", ""⟩] := by
  decide

/-- The scenario of C1 with a failure in the first region: the two resources of
the second region are written, after the failure was logged. -/
theorem fetchResources_first_region_fails :
    (FetchResources countingSdk prodClient 0).trace
      = [Event.fetch 0
           { TencentClient := some ⟨⟨"AKID", "secret"⟩, "ap-guangzhou", ⟨"en-US"⟩⟩, Name := "prod" }
           (Except.error ⟨"RequestLimitExceeded"⟩),
         Event.logPrint "[prod][Tencent] RequestLimitExceeded",
         Event.fetch 0
           { TencentClient := some ⟨⟨"AKID", "secret"⟩, "ap-shanghai", ⟨"en-US"⟩⟩, Name := "prod" }
           (Except.ok
             [⟨"ap-shanghai/ins-1", "https://console/ins-1", "Tencent", "CVM", "ap-shanghai", ""⟩,
              ⟨"ap-shanghai/ins-2", "https://console/ins-2", "Tencent", "CVM", "ap-shanghai", ""⟩]),
         Event.upsert ⟨"ap-shanghai/ins-1", "https://console/ins-1", "Tencent", "CVM", "ap-shanghai", ""⟩,
         Event.upsert ⟨"ap-shanghai/ins-2", "https://console/ins-2", "Tencent", "CVM", "ap-shanghai", ""⟩] := by
  decide

/-- C3. When region enumeration succeeds with the regions `names` and client
construction succeeds, `FetchResources` returns after exactly
`names.length * M` fetcher invocations, `M = 1` being the length of the
registry: the fetcher is invoked once per enumerated region, in enumeration
order, whatever the invocations return, each time with the handle of the
account (same `Name`) re-scoped to that region. -/
theorem fetchResources_fan_out {σ : Type} (sdk : TencentSdk σ)
    (client : ProviderClient) (tc : TencentClient) (names : List String) (w : σ)
    (hclient : client.TencentClient = some tc)
    (henum : (sdk.DescribeRegions tc w).1 = Except.ok (names.map RegionInfo.named))
    (hnew : ∀ cred r cpf, sdk.NewClient cred r cpf = Except.ok ⟨cred, r, cpf⟩) :
    (FetchResources sdk client w).outcome = Outcome.returned
    ∧ (listOfSupportedServices sdk).length = 1
    ∧ (invocations (FetchResources sdk client w).trace).length
        = names.length * (listOfSupportedServices sdk).length
    ∧ (invocations (FetchResources sdk client w).trace).map (fun i => (i.1, i.2.1))
        = names.map (fun r =>
            (0, { client with TencentClient := some ⟨tc.credential, r, ⟨"en-US"⟩⟩ }))
    ∧ ∀ i ∈ invocations (FetchResources sdk client w).trace, i.2.1.Name = client.Name := by
  have h := regionLoop_handles sdk 0 sdk.cvmInstances hnew names client tc
    (sdk.DescribeRegions tc w).2 hclient
  obtain ⟨h1, h2⟩ := h
  have htrace : (FetchResources sdk client w).trace
      = (regionLoop sdk 0 sdk.cvmInstances (names.map RegionInfo.named) client
          (sdk.DescribeRegions tc w).2).1.trace := by
    simp [FetchResources, listOfSupportedServices, serviceLoop, hclient, henum, h1]
  have hout : (FetchResources sdk client w).outcome = Outcome.returned := by
    simp [FetchResources, listOfSupportedServices, serviceLoop, hclient, henum, h1]
  rw [htrace]
  refine ⟨hout, rfl, ?_, h2, ?_⟩
  · have hl := congrArg List.length h2
    simpa [listOfSupportedServices] using hl
  · intro i hi
    have hmem : (i.1, i.2.1) ∈ names.map (fun r =>
        ((0 : Nat), { client with TencentClient := some ⟨tc.credential, r, ⟨"en-US"⟩⟩ })) := by
      rw [← h2]
      exact List.mem_map_of_mem (fun i => (i.1, i.2.1)) hi
    obtain ⟨r, _, hr⟩ := List.mem_map.1 hmem
    have h3 := congrArg (fun p => p.2.Name) hr
    exact h3.symm

/-- C3, at a concrete input: two regions, two invocations, the first with the
handle of `prod` bound to `ap-guangzhou`, the second with it bound to
`ap-shanghai`, although the first invocation fails. -/
theorem fetchResources_fan_out_witness :
    (FetchResources countingSdk prodClient 0).outcome = Outcome.returned
    ∧ (listOfSupportedServices countingSdk).length = 1
    ∧ (invocations (FetchResources countingSdk prodClient 0).trace).length
        = ["ap-guangzhou", "ap-shanghai"].length * (listOfSupportedServices countingSdk).length
    ∧ (invocations (FetchResources countingSdk prodClient 0).trace).map (fun i => (i.1, i.2.1))
        = ["ap-guangzhou", "ap-shanghai"].map (fun r =>
            (0, { prodClient with TencentClient := some ⟨⟨"AKID", "secret"⟩, r, ⟨"en-US"⟩⟩ }))
    ∧ ∀ i ∈ invocations (FetchResources countingSdk prodClient 0).trace,
        i.2.1.Name = prodClient.Name :=
  fetchResources_fan_out countingSdk prodClient ⟨⟨"AKID", "secret"⟩, "eu-frankfurt", ⟨"en-US"⟩⟩
    ["ap-guangzhou", "ap-shanghai"] 0 rfl rfl (fun _ _ _ => rfl)

/-- C4. A failing region enumeration makes `FetchResources` panic: the failure
is logged, and the next statement reads the region set of the missing
response.  No fetcher is invoked and no store write is issued, but the call
does not return. -/
theorem fetchResources_enumeration_error_panics :
    (FetchResources noRegionsSdk prodClient 0).outcome = Outcome.panicked
    ∧ (FetchResources noRegionsSdk prodClient 0).trace
        = [Event.logError "[prod][Tencent] Couldn't fetch the list of regions: AuthFailure"] := by
  decide

/-- Whatever the SDK, the handle and the world: a failing region enumeration
ends `FetchResources` in a panic. -/
theorem fetchResources_enumeration_error_always_panics {σ : Type} (sdk : TencentSdk σ)
    (client : ProviderClient) (tc : TencentClient) (w : σ) (err : Err)
    (hclient : client.TencentClient = some tc)
    (henum : (sdk.DescribeRegions tc w).1 = Except.error err) :
    (FetchResources sdk client w).outcome = Outcome.panicked := by
  simp [FetchResources, listOfSupportedServices, serviceLoop, hclient, henum]

/-! ## The store write -/

/-- C2. The store write is idempotent: on every store and for every resource,
upserting the resource twice leaves exactly the store that upserting it once
leaves, hence the same number of rows, the same `resource_id`s and the same
field values in every row. -/
theorem upsert_idempotent (store : List Resource) (r : Resource) :
    upsert (upsert store r) r = upsert store r
    ∧ (upsert (upsert store r) r).length = (upsert store r).length
    ∧ (upsert (upsert store r) r).map (fun row => row.ResourceId)
        = (upsert store r).map (fun row => row.ResourceId) := by
  have key : upsert (upsert store r) r = upsert store r := by
    by_cases h : store.any (fun row => decide (row.ResourceId = r.ResourceId)) = true
    · have h2 : (store.map (fun row =>
          if row.ResourceId = r.ResourceId then { row with Link := r.Link } else row)).any
            (fun row => decide (row.ResourceId = r.ResourceId)) = true := by
        simp only [List.any_eq_true, List.mem_map, decide_eq_true_eq] at h ⊢
        obtain ⟨row, hmem, hid⟩ := h
        exact ⟨{ row with Link := r.Link }, ⟨row, hmem, by simp [hid]⟩, hid⟩
      simp only [upsert, h, h2, if_true, List.map_map]
      apply List.map_congr_left
      intro row _
      by_cases hid : row.ResourceId = r.ResourceId <;> simp [hid]
    · have h2 : (store ++ [r]).any (fun row => decide (row.ResourceId = r.ResourceId)) = true := by
        simp
      have h3 : ∀ row ∈ store, ¬ row.ResourceId = r.ResourceId := by
        intro row hmem hid
        apply h
        simp only [List.any_eq_true, decide_eq_true_eq]
        exact ⟨row, hmem, hid⟩
      simp only [upsert, h, h2, if_true, Bool.false_eq_true, if_false, List.map_append,
        List.map_cons, List.map_nil]
      congr 1
      conv_rhs => rw [← List.map_id store]
      apply List.map_congr_left
      intro row hmem
      simp [h3 row hmem]
  rw [key]
  exact ⟨rfl, rfl, rfl⟩

/-! ## handlers/azure/redis_handler.go: the claims -/

/-- The association-list cache obeys get-after-set. -/
theorem listCache_get_set (ρ : Type) (c : List (String × ρ)) (k : String) (v : ρ) :
    (listCache ρ).Get ((listCache ρ).Set c k v) k = some v := by
  simp [listCache]

/-- A request whose environment parses and whose key is cached is answered from
the cache, which it leaves as it is. -/
theorem redisHandler_hit {κ ρ : Type} (cache : CacheOps κ ρ) (req : Request ρ) (c : κ) (p : ρ)
    (hparse : req.ParseEnvironment = none)
    (hhit : cache.Get c (redisKey req.SubscriptionID) = some p) :
    RedisHandler cache req c
      = ([HandlerEvent.cacheGet (redisKey req.SubscriptionID), HandlerEvent.respondWithJSON 200 p], c) := by
  simp [RedisHandler, hparse, hhit]

/-- Requests whose environment parses and whose key is cached are all answered
from the cache, which stays as it is. -/
theorem serve_hits {κ ρ : Type} (cache : CacheOps κ ρ) (s : String) (c : κ) (p : ρ)
    (hhit : cache.Get c (redisKey s) = some p) :
    ∀ later : List (Request ρ),
      (∀ q ∈ later, q.ParseEnvironment = none ∧ q.SubscriptionID = s) →
      serve cache later c
        = (later.map (fun _ => [HandlerEvent.cacheGet (redisKey s), HandlerEvent.respondWithJSON 200 p]),
            c) := by
  intro later
  induction later with
  | nil => intro _; rfl
  | cons q rest ih =>
    intro h
    have hq := h q (List.mem_cons_self q rest)
    have hrest := ih (fun q2 h2 => h q2 (List.mem_cons_of_mem q h2))
    have hstep := redisHandler_hit cache q c p hq.1 (by rw [hq.2]; exact hhit)
    simp only [serve, hstep, hrest, List.map_cons, hq.2]

/-- C5. With `ParseEnvironment` succeeding and a cache that obeys get-after-set:
on a miss for the key of subscription `s` with `DescribeRedisInstances(s)`
returning `p`, the handler looks the key up, runs the query, stores `p` under
the key and responds 200 with `p`; and every following request for `s` on the
resulting cache only looks the key up and responds 200 with `p`, calling
neither `DescribeRedisInstances` nor `cache.Set`. -/
theorem redisHandler_miss_then_hits {κ ρ : Type} (cache : CacheOps κ ρ)
    (hlaw : ∀ c k v, cache.Get (cache.Set c k v) k = some v)
    (s : String) (c : κ) (p : ρ) (req : Request ρ)
    (hparse : req.ParseEnvironment = none) (hsub : req.SubscriptionID = s)
    (hmiss : cache.Get c (redisKey s) = none)
    (hfetch : req.DescribeRedisInstances s = Except.ok p) :
    RedisHandler cache req c
      = ([HandlerEvent.cacheGet (redisKey s), HandlerEvent.describeRedisInstances s,
          HandlerEvent.cacheSet (redisKey s) p, HandlerEvent.respondWithJSON 200 p],
          cache.Set c (redisKey s) p)
    ∧ ∀ later : List (Request ρ),
        (∀ q ∈ later, q.ParseEnvironment = none ∧ q.SubscriptionID = s) →
        serve cache later (RedisHandler cache req c).2
          = (later.map (fun _ =>
              [HandlerEvent.cacheGet (redisKey s), HandlerEvent.respondWithJSON 200 p]),
              (RedisHandler cache req c).2) := by
  have h1 : RedisHandler cache req c
      = ([HandlerEvent.cacheGet (redisKey s), HandlerEvent.describeRedisInstances s,
          HandlerEvent.cacheSet (redisKey s) p, HandlerEvent.respondWithJSON 200 p],
          cache.Set c (redisKey s) p) := by
    simp [RedisHandler, hparse, hsub, hmiss, hfetch]
  refine ⟨h1, ?_⟩
  rw [h1]
  exact serve_hits cache s _ p (hlaw c (redisKey s) p)

/-- C5, at a concrete input: an empty association-list cache, then three more
requests, whatever their query would answer. -/
theorem redisHandler_miss_then_hits_witness :
    RedisHandler (listCache String) (goodRequest "[redis-1]") []
      = ([HandlerEvent.cacheGet (redisKey "sub123"), HandlerEvent.describeRedisInstances "sub123",
          HandlerEvent.cacheSet (redisKey "sub123") "[redis-1]",
          HandlerEvent.respondWithJSON 200 "[redis-1]"],
          (listCache String).Set [] (redisKey "sub123") "[redis-1]")
    ∧ serve (listCache String) [goodRequest "[]", failingRequest, goodRequest "[redis-2]"]
          (RedisHandler (listCache String) (goodRequest "[redis-1]") []).2
        = ([goodRequest "[]", failingRequest, goodRequest "[redis-2]"].map (fun _ =>
              [HandlerEvent.cacheGet (redisKey "sub123"), HandlerEvent.respondWithJSON 200 "[redis-1]"]),
            (RedisHandler (listCache String) (goodRequest "[redis-1]") []).2) :=
  ⟨(redisHandler_miss_then_hits (listCache String) (listCache_get_set String) "sub123" []
      "[redis-1]" (goodRequest "[redis-1]") rfl rfl rfl rfl).1,
    (redisHandler_miss_then_hits (listCache String) (listCache_get_set String) "sub123" []
      "[redis-1]" (goodRequest "[redis-1]") rfl rfl rfl rfl).2
      [goodRequest "[]", failingRequest, goodRequest "[redis-2]"] (by decide)⟩

/-- C6. With `ParseEnvironment` succeeding, on a miss for the key of the
subscription and `DescribeRedisInstances` returning an error, the handler looks
the key up, runs the query and responds 500 with the message
`DB:DescribeRedis is missing`, whatever the error; it does not call `cache.Set`
and leaves the cache as it was, so the key is still missing. -/
theorem redisHandler_fetch_error {κ ρ : Type} (cache : CacheOps κ ρ) (req : Request ρ) (c : κ)
    (err : Err)
    (hparse : req.ParseEnvironment = none)
    (hmiss : cache.Get c (redisKey req.SubscriptionID) = none)
    (hfetch : req.DescribeRedisInstances req.SubscriptionID = Except.error err) :
    RedisHandler cache req c
      = ([HandlerEvent.cacheGet (redisKey req.SubscriptionID),
          HandlerEvent.describeRedisInstances req.SubscriptionID,
          HandlerEvent.respondWithError 500 "DB:DescribeRedis is missing"], c)
    ∧ cache.Get (RedisHandler cache req c).2 (redisKey req.SubscriptionID) = none := by
  have h1 : RedisHandler cache req c
      = ([HandlerEvent.cacheGet (redisKey req.SubscriptionID),
          HandlerEvent.describeRedisInstances req.SubscriptionID,
          HandlerEvent.respondWithError 500 "DB:DescribeRedis is missing"], c) := by
    simp [RedisHandler, hparse, hmiss, hfetch, StatusInternalServerError]
  refine ⟨h1, ?_⟩
  rw [h1]
  exact hmiss

/-- C6, at a concrete input: the key `azure.sub123.storage.redis` is missing and
the query fails. -/
theorem redisHandler_fetch_error_witness :
    RedisHandler (listCache String) failingRequest []
      = ([HandlerEvent.cacheGet "azure.sub123.storage.redis",
          HandlerEvent.describeRedisInstances "sub123",
          HandlerEvent.respondWithError 500 "DB:DescribeRedis is missing"], [])
    ∧ (listCache String).Get (RedisHandler (listCache String) failingRequest []).2
        "azure.sub123.storage.redis" = none :=
  redisHandler_fetch_error (listCache String) failingRequest [] ⟨"connection refused"⟩ rfl rfl rfl

/-- C7. On a request on which `config.ParseEnvironment` fails the handler
responds 500 with `Couldn't parse environment` and then goes on: it looks the
key up, runs the query, stores the answer and writes a second response, 200
with the payload. -/
theorem redisHandler_parse_error_goes_on :
    RedisHandler (listCache String) (unparsedRequest "[redis-1]") []
      = ([HandlerEvent.respondWithError 500 "Couldn't parse environment",
          HandlerEvent.cacheGet "azure.sub123.storage.redis",
          HandlerEvent.describeRedisInstances "sub123",
          HandlerEvent.cacheSet "azure.sub123.storage.redis" "[redis-1]",
          HandlerEvent.respondWithJSON 200 "[redis-1]"],
          [("azure.sub123.storage.redis", "[redis-1]")])
    ∧ responses (RedisHandler (listCache String) (unparsedRequest "[redis-1]") []).1
      = [HandlerEvent.respondWithError 500 "Couldn't parse environment",
         HandlerEvent.respondWithJSON 200 "[redis-1]"] := by
  decide

/-- On every request the failure of `config.ParseEnvironment` only adds the 500
response in front of what the handler does when the environment parses. -/
theorem redisHandler_parse_error_prepends {κ ρ : Type} (cache : CacheOps κ ρ) (req : Request ρ)
    (c : κ) (err : Err) :
    RedisHandler cache { req with ParseEnvironment := some err } c
      = (HandlerEvent.respondWithError 500 "Couldn't parse environment"
          :: (RedisHandler cache { req with ParseEnvironment := none } c).1,
          (RedisHandler cache { req with ParseEnvironment := none } c).2) := by
  simp only [RedisHandler, StatusInternalServerError]
  cases cache.Get c (redisKey req.SubscriptionID) with
  | some p => rfl
  | none => cases req.DescribeRedisInstances req.SubscriptionID <;> rfl

/-- C10. The cache key of the handler is collision-free: two different
subscription IDs, whatever characters they contain, give two different keys. -/
theorem redisKey_injective (s1 s2 : String) (h : s1 ≠ s2) : redisKey s1 ≠ redisKey s2 := by
  intro hk
  apply h
  have hd := congrArg String.data hk
  simp only [redisKey, String.data_append] at hd
  exact String.ext (List.append_cancel_left (List.append_cancel_right hd))

/-- C10, at a concrete input: an ID with a dot and the same ID without it. -/
theorem redisKey_injective_witness :
    "sub.123" ≠ "sub123" ∧ redisKey "sub.123" ≠ redisKey "sub123" :=
  ⟨by decide, redisKey_injective "sub.123" "sub123" (by decide)⟩

/-! ## internal/config/load.go: the account loops -/

/-- A loop that stops at once satisfies every specification that expects a stop. -/
theorem LoopSpec.of_error (stop : Stop) (clients : List ProviderClient) (names : List String) :
    LoopSpec (Except.error stop) clients true names :=
  ⟨fun _ => ⟨stop, rfl⟩, fun h => absurd h (by decide)⟩

/-- One more handle in front: the loop went on with `clients ++ [h]`. -/
theorem LoopSpec.step {result : Except Stop (List ProviderClient)} {clients : List ProviderClient}
    {fails : Bool} {names : List String} (h : ProviderClient) (hcount : h.clientCount = 1)
    (hrest : LoopSpec result (clients ++ [h]) fails names) :
    LoopSpec result clients fails (h.Name :: names) := by
  refine ⟨hrest.1, fun hf => ?_⟩
  obtain ⟨added, hres, hnames, hall⟩ := hrest.2 hf
  refine ⟨h :: added, ?_, ?_, ?_⟩
  · rw [hres, List.append_assoc]; rfl
  · simp [hnames]
  · intro x hx
    rcases List.mem_cons.1 hx with hx | hx
    · rw [hx]; exact hcount
    · exact hall x hx

/-- Two loops in sequence. -/
theorem LoopSpec.bind {result : Except Stop (List ProviderClient)}
    {next : List ProviderClient → Except Stop (List ProviderClient)}
    {clients : List ProviderClient} {f1 f2 : Bool} {n1 n2 : List String}
    (h1 : LoopSpec result clients f1 n1)
    (h2 : ∀ cs, LoopSpec (next cs) cs f2 n2) :
    LoopSpec (result >>= next) clients (f1 || f2) (n1 ++ n2) := by
  cases f1 with
  | true =>
    obtain ⟨stop, hs⟩ := h1.1 rfl
    rw [hs]
    exact ⟨fun _ => ⟨stop, rfl⟩, fun h => absurd h (by simp)⟩
  | false =>
    obtain ⟨a1, hres, hn1, hall1⟩ := h1.2 rfl
    rw [hres]
    have h2s := h2 (clients ++ a1)
    refine ⟨fun hf => ?_, fun hf => ?_⟩
    · have hf2 : f2 = true := by simpa using hf
      obtain ⟨stop, hs⟩ := h2s.1 hf2
      exact ⟨stop, hs⟩
    · have hf2 : f2 = false := by simpa using hf
      obtain ⟨a2, hres2, hn2, hall2⟩ := h2s.2 hf2
      refine ⟨a1 ++ a2, ?_, ?_, ?_⟩
      · show next (clients ++ a1) = _
        rw [hres2, List.append_assoc]
      · simp [hn1, hn2]
      · intro x hx
        rcases List.mem_append.1 hx with hx | hx
        · exact hall1 x hx
        · exact hall2 x hx

/-- The guard `if len(accounts) > 0` changes nothing: the loop over no account
leaves the handles as they are. -/
theorem providerSection_eq {α : Type}
    (loop : List α → List ProviderClient → Except Stop (List ProviderClient))
    (hnil : ∀ cs, loop [] cs = Except.ok cs) (accounts : List α) (clients : List ProviderClient) :
    providerSection loop accounts clients = loop accounts clients := by
  cases accounts with
  | nil => simp [providerSection, hnil]
  | cons a rest => simp [providerSection]

theorem awsLoop_spec (sdk : LoadSdk) : ∀ (accounts : List AWSConfig) (clients : List ProviderClient),
    LoopSpec (awsLoop sdk accounts clients) clients (accounts.any (AWSConfig.buildFails sdk))
      ((accounts.filter AWSConfig.recognised).map (fun a => a.Name)) := by
  intro accounts
  induction accounts with
  | nil => intro clients; exact ⟨fun h => absurd h (by simp), fun _ => ⟨[], by simp [awsLoop]⟩⟩
  | cons account rest ih =>
    intro clients
    by_cases h1 : account.Source = "CREDENTIALS_FILE"
    · by_cases h2 : account.Path.length > 0
      · cases h3 : sdk.LoadDefaultConfig ⟨some account.Profile, some [account.Path]⟩ with
        | error err =>
          simp only [awsLoop, h1, h2, h3, if_true, List.any_cons, AWSConfig.buildFails, failed,
            Bool.true_or]
          exact LoopSpec.of_error _ _ _
        | ok cfg =>
          simp only [awsLoop, h1, h2, h3, if_true, List.any_cons, AWSConfig.buildFails, failed,
            Bool.false_or, List.filter_cons, AWSConfig.recognised, decide_True, Bool.true_or,
            List.map_cons]
          exact LoopSpec.step { AWSClient := some cfg, Name := account.Name } rfl (ih _)
      · cases h3 : sdk.LoadDefaultConfig ⟨some account.Profile, none⟩ with
        | error err =>
          simp only [awsLoop, h1, h2, h3, if_true, if_false, List.any_cons, AWSConfig.buildFails,
            failed, Bool.true_or]
          exact LoopSpec.of_error _ _ _
        | ok cfg =>
          simp only [awsLoop, h1, h2, h3, if_true, if_false, List.any_cons, AWSConfig.buildFails,
            failed, Bool.false_or, List.filter_cons, AWSConfig.recognised, decide_True,
            Bool.true_or, List.map_cons]
          exact LoopSpec.step { AWSClient := some cfg, Name := account.Name } rfl (ih _)
    · by_cases h2 : account.Source = "ENVIRONMENT_VARIABLES"
      · cases h3 : sdk.LoadDefaultConfig ⟨none, none⟩ with
        | error err =>
          simp only [awsLoop, h1, h2, h3, if_true, if_false, List.any_cons, AWSConfig.buildFails,
            failed, Bool.true_or]
          exact LoopSpec.of_error _ _ _
        | ok cfg =>
          simp only [awsLoop, h1, h2, h3, if_true, if_false, List.any_cons, AWSConfig.buildFails,
            failed, Bool.false_or, List.filter_cons, AWSConfig.recognised, decide_True,
            decide_False, Bool.or_true, List.map_cons]
          exact LoopSpec.step { AWSClient := some cfg, Name := account.Name } rfl (ih _)
      · simp only [awsLoop, h1, h2, if_false, List.any_cons, AWSConfig.buildFails,
          Bool.false_or, List.filter_cons, AWSConfig.recognised, decide_False, Bool.or_false]
        exact ih _

theorem digitalOceanLoop_spec (sdk : LoadSdk) :
    ∀ (accounts : List DigitalOceanConfig) (clients : List ProviderClient),
      LoopSpec (digitalOceanLoop sdk accounts clients) clients false
        (accounts.map (fun a => a.Name)) := by
  intro accounts
  induction accounts with
  | nil =>
    intro clients
    exact ⟨fun h => absurd h (by simp), fun _ => ⟨[], by simp [digitalOceanLoop]⟩⟩
  | cons account rest ih =>
    intro clients
    simp only [digitalOceanLoop, List.map_cons]
    exact LoopSpec.step
      { DigitalOceanClient := some (sdk.NewFromToken account.Token), Name := account.Name }
      rfl (ih _)

theorem ociLoop_spec (sdk : LoadSdk) :
    ∀ (accounts : List OciConfig) (clients : List ProviderClient),
      LoopSpec (ociLoop sdk accounts clients) clients false
        ((accounts.filter OciConfig.recognised).map (fun a => a.Name)) := by
  intro accounts
  induction accounts with
  | nil => intro clients; exact ⟨fun h => absurd h (by simp), fun _ => ⟨[], by simp [ociLoop]⟩⟩
  | cons account rest ih =>
    intro clients
    by_cases h1 : account.Source = "CREDENTIALS_FILE"
    · simp only [ociLoop, h1, if_true, List.filter_cons, OciConfig.recognised, decide_True,
        List.map_cons]
      exact LoopSpec.step { OciClient := some sdk.DefaultConfigProvider, Name := account.Name }
        rfl (ih _)
    · simp only [ociLoop, h1, if_false, List.filter_cons, OciConfig.recognised, decide_False]
      exact ih _

theorem civoLoop_spec (sdk : LoadSdk) :
    ∀ (accounts : List CivoConfig) (clients : List ProviderClient),
      LoopSpec (civoLoop sdk accounts clients) clients
        (accounts.any (fun a => failed (sdk.CivoNewClient a.Token "LON1")))
        (accounts.map (fun a => a.Name)) := by
  intro accounts
  induction accounts with
  | nil => intro clients; exact ⟨fun h => absurd h (by simp), fun _ => ⟨[], by simp [civoLoop]⟩⟩
  | cons account rest ih =>
    intro clients
    cases h3 : sdk.CivoNewClient account.Token "LON1" with
    | error err =>
      simp only [civoLoop, h3, List.any_cons, failed, Bool.true_or]
      exact LoopSpec.of_error _ _ _
    | ok client =>
      simp only [civoLoop, h3, List.any_cons, failed, Bool.false_or, List.map_cons]
      exact LoopSpec.step { CivoClient := some client, Name := account.Name } rfl (ih _)

theorem kubernetesLoop_spec (sdk : LoadSdk) :
    ∀ (accounts : List KubernetesConfig) (clients : List ProviderClient),
      LoopSpec (kubernetesLoop sdk accounts clients) clients
        (accounts.any (KubernetesConfig.buildFails sdk))
        (accounts.map (fun a => a.Name)) := by
  intro accounts
  induction accounts with
  | nil =>
    intro clients
    exact ⟨fun h => absurd h (by simp), fun _ => ⟨[], by simp [kubernetesLoop]⟩⟩
  | cons account rest ih =>
    intro clients
    cases h3 : sdk.ClientConfig account.Path with
    | error err =>
      simp only [kubernetesLoop, h3, List.any_cons, KubernetesConfig.buildFails, Bool.true_or]
      exact LoopSpec.of_error _ _ _
    | ok kubeConfig =>
      cases h4 : sdk.NewForConfig kubeConfig with
      | error err =>
        simp only [kubernetesLoop, h3, h4, List.any_cons, KubernetesConfig.buildFails, failed,
          Bool.true_or]
        exact LoopSpec.of_error _ _ _
      | ok client =>
        simp only [kubernetesLoop, h3, h4, List.any_cons, KubernetesConfig.buildFails, failed,
          Bool.false_or, List.map_cons]
        exact LoopSpec.step { K8sClient := some client, Name := account.Name } rfl (ih _)

theorem linodeLoop_spec (sdk : LoadSdk) :
    ∀ (accounts : List LinodeConfig) (clients : List ProviderClient),
      LoopSpec (linodeLoop sdk accounts clients) clients false
        (accounts.map (fun a => a.Name)) := by
  intro accounts
  induction accounts with
  | nil => intro clients; exact ⟨fun h => absurd h (by simp), fun _ => ⟨[], by simp [linodeLoop]⟩⟩
  | cons account rest ih =>
    intro clients
    simp only [linodeLoop, List.map_cons]
    exact LoopSpec.step
      { LinodeClient := some (sdk.LinodeNewClient account.Token), Name := account.Name }
      rfl (ih _)

theorem tencentLoop_spec (sdk : LoadSdk) :
    ∀ (accounts : List TencentConfig) (clients : List ProviderClient),
      LoopSpec (tencentLoop sdk accounts clients) clients
        (accounts.any (fun a =>
          failed (sdk.TencentNewClient ⟨a.SecretID, a.SecretKey⟩ sdk.Frankfurt ⟨"en-US"⟩)))
        (accounts.map (fun a => a.Name)) := by
  intro accounts
  induction accounts with
  | nil => intro clients; exact ⟨fun h => absurd h (by simp), fun _ => ⟨[], by simp [tencentLoop]⟩⟩
  | cons account rest ih =>
    intro clients
    cases h3 : sdk.TencentNewClient ⟨account.SecretID, account.SecretKey⟩ sdk.Frankfurt ⟨"en-US"⟩ with
    | error err =>
      simp only [tencentLoop, h3, List.any_cons, failed, Bool.true_or]
      exact LoopSpec.of_error _ _ _
    | ok client =>
      simp only [tencentLoop, h3, List.any_cons, failed, Bool.false_or, List.map_cons]
      exact LoopSpec.step { TencentClient := some client, Name := account.Name } rfl (ih _)

/-- The seven provider sections of `Load`, run from no handle: they stop early
when some client construction fails, and otherwise build exactly one handle per
account with a recognised authentication source, in section order. -/
theorem buildClients_spec (sdk : LoadSdk) (config : Config) :
    LoopSpec (buildClients sdk config) [] (someBuildFails sdk config) (recognisedNames config) := by
  have h := LoopSpec.bind (awsLoop_spec sdk config.AWS [])
    (fun c1 => LoopSpec.bind (digitalOceanLoop_spec sdk config.DigitalOcean c1)
    (fun c2 => LoopSpec.bind (ociLoop_spec sdk config.Oci c2)
    (fun c3 => LoopSpec.bind (civoLoop_spec sdk config.Civo c3)
    (fun c4 => LoopSpec.bind (kubernetesLoop_spec sdk config.Kubernetes c4)
    (fun c5 => LoopSpec.bind (linodeLoop_spec sdk config.Linode c5)
    (fun c6 => tencentLoop_spec sdk config.Tencent c6))))))
  simp only [buildClients, someBuildFails, recognisedNames, Bool.false_or, Bool.or_assoc,
    List.append_assoc,
    providerSection_eq (awsLoop sdk) (fun _ => rfl),
    providerSection_eq (digitalOceanLoop sdk) (fun _ => rfl),
    providerSection_eq (ociLoop sdk) (fun _ => rfl),
    providerSection_eq (civoLoop sdk) (fun _ => rfl),
    providerSection_eq (kubernetesLoop sdk) (fun _ => rfl),
    providerSection_eq (linodeLoop sdk) (fun _ => rfl),
    providerSection_eq (tencentLoop sdk) (fun _ => rfl)] at h ⊢
  exact h

/-! ## internal/config/load.go: the claims -/

/-- C8, as stated, fails: an AWS entry whose `Source` is neither
`CREDENTIALS_FILE` nor `ENVIRONMENT_VARIABLES` and an OCI entry whose `Source`
is not `CREDENTIALS_FILE` get no handle.  With these two and one DigitalOcean
entry `Load` succeeds and returns one handle for three account entries. -/
theorem load_skips_unknown_sources :
    Load exampleLoadSdk "unknown-source.toml"
      = LoadResult.ok (sqliteConfig [⟨"aws-role", "", "", "IAM_ROLE"⟩] [⟨"oci-key", "API_KEY"⟩] [])
          [{ DigitalOceanClient := some ⟨2⟩, Name := "do-main" }]
    ∧ accountCount (sqliteConfig [⟨"aws-role", "", "", "IAM_ROLE"⟩] [⟨"oci-key", "API_KEY"⟩] []) = 3
    ∧ [({ DigitalOceanClient := some ⟨2⟩, Name := "do-main" } : ProviderClient)].length
        ≠ accountCount (sqliteConfig [⟨"aws-role", "", "", "IAM_ROLE"⟩] [⟨"oci-key", "API_KEY"⟩] []) := by
  decide

/-- C8, amended. When `Load` succeeds, the handles it returns are exactly one
per account entry with a recognised authentication source, in section order
(every entry of the DigitalOcean, Civo, Kubernetes, Linode and Tencent
sections, the AWS entries with `Source` `CREDENTIALS_FILE` or
`ENVIRONMENT_VARIABLES`, the OCI entries with `Source` `CREDENTIALS_FILE`):
the handles carry the names of these accounts, there are as many handles as
such entries, and each handle carries exactly one provider client. -/
theorem load_one_handle_per_recognised_account (sdk : LoadSdk) (configPath : String)
    (config : Config) (clients : List ProviderClient)
    (hload : Load sdk configPath = LoadResult.ok config clients) :
    clients.map (fun h => h.Name) = recognisedNames config
    ∧ clients.length = (recognisedNames config).length
    ∧ (recognisedNames config).length
        = (config.AWS.filter AWSConfig.recognised).length + config.DigitalOcean.length
          + (config.Oci.filter OciConfig.recognised).length + config.Civo.length
          + config.Kubernetes.length + config.Linode.length + config.Tencent.length
    ∧ ∀ h ∈ clients, h.clientCount = 1 := by
  have hnames : ∀ cfg : Config, (recognisedNames cfg).length
        = (cfg.AWS.filter AWSConfig.recognised).length + cfg.DigitalOcean.length
          + (cfg.Oci.filter OciConfig.recognised).length + cfg.Civo.length
          + cfg.Kubernetes.length + cfg.Linode.length + cfg.Tencent.length := by
    intro cfg
    simp [recognisedNames, Nat.add_assoc]
  unfold Load at hload
  cases hfile : loadConfigFromFile sdk configPath with
  | error err => rw [hfile] at hload; simp at hload
  | ok cfg =>
    rw [hfile] at hload
    simp only [] at hload
    split at hload
    · simp at hload
    · have hspec := buildClients_spec sdk cfg
      cases hb : buildClients sdk cfg with
      | error stop =>
        rw [hb] at hload
        cases stop <;> simp at hload
      | ok built =>
        rw [hb] at hload hspec
        simp only [LoadResult.ok.injEq] at hload
        obtain ⟨hcfg, hcl⟩ := hload
        subst hcfg
        subst hcl
        cases hf : someBuildFails sdk cfg with
        | true =>
          obtain ⟨stop, hs⟩ := hspec.1 hf
          simp at hs
        | false =>
          obtain ⟨added, hres, hn, hall⟩ := hspec.2 hf
          simp only [List.nil_append, Except.ok.injEq] at hres
          subst hres
          refine ⟨hn, ?_, hnames cfg, hall⟩
          rw [← hn, List.length_map]

/-- C8 amended, at a concrete input: one AWS, one DigitalOcean, one OCI and one
Civo account, all with recognised sources. -/
theorem load_one_handle_per_recognised_account_witness :
    Load exampleLoadSdk "komiser.toml"
      = LoadResult.ok
          (sqliteConfig [envAws] [⟨"oci-file", "CREDENTIALS_FILE"⟩] [⟨"civo-main", "token"⟩])
          [{ AWSClient := some ⟨1⟩, Name := "aws-env" },
           { DigitalOceanClient := some ⟨2⟩, Name := "do-main" },
           { OciClient := some ⟨3⟩, Name := "oci-file" },
           { CivoClient := some ⟨4⟩, Name := "civo-main" }]
    ∧ ([{ AWSClient := some ⟨1⟩, Name := "aws-env" },
        { DigitalOceanClient := some ⟨2⟩, Name := "do-main" },
        { OciClient := some ⟨3⟩, Name := "oci-file" },
        { CivoClient := some ⟨4⟩, Name := "civo-main" }] : List ProviderClient).map (fun h => h.Name)
        = recognisedNames
            (sqliteConfig [envAws] [⟨"oci-file", "CREDENTIALS_FILE"⟩] [⟨"civo-main", "token"⟩]) :=
  ⟨by decide,
    (load_one_handle_per_recognised_account exampleLoadSdk "komiser.toml" _ _ (by decide)).1⟩

/-- C9, as stated, fails: an AWS `CREDENTIALS_FILE` account whose
`LoadDefaultConfig` fails makes `Load` return that error and no handle, be it
placed before or after a valid account; a Civo account whose client cannot be
built ends the process. -/
theorem load_build_failure_not_isolated :
    hasStore (sqliteConfig [brokenAws, envAws] [] []) = true
    ∧ Load exampleLoadSdk "broken-first.toml"
        = LoadResult.error ⟨"failed to load shared credentials file"⟩
    ∧ Load exampleLoadSdk "broken-last.toml"
        = LoadResult.error ⟨"failed to load shared credentials file"⟩
    ∧ Load exampleLoadSdk "civo-expired.toml" = LoadResult.fatal ⟨"civo: invalid token"⟩ := by
  decide

/-- C9, amended. For every parsed configuration that has a store descriptor, a
failure to build one account's client is not isolated: if building the client
of some configured account fails, `Load` returns no handle, it returns an
error or ends the process; and if no construction fails, `Load` returns the
configuration and the handles without error. -/
theorem load_aborts_on_build_failure (sdk : LoadSdk) (configPath : String) (config : Config)
    (hparsed : loadConfigFromFile sdk configPath = Except.ok config)
    (hstore : hasStore config = true) :
    (someBuildFails sdk config = true →
      ∃ err, Load sdk configPath = LoadResult.error err ∨ Load sdk configPath = LoadResult.fatal err)
    ∧ (someBuildFails sdk config = false →
      ∃ clients, Load sdk configPath = LoadResult.ok config clients) := by
  have hguard : ¬ (config.SQLite.File.length = 0 ∧ config.Postgres.URI = "") := by
    intro h
    simp [hasStore, h.1, h.2] at hstore
  have hspec := buildClients_spec sdk config
  refine ⟨fun hf => ?_, fun hf => ?_⟩
  · obtain ⟨stop, hs⟩ := hspec.1 hf
    cases stop with
    | returned err => exact ⟨err, Or.inl (by simp [Load, hparsed, hguard, hs])⟩
    | exited err => exact ⟨err, Or.inr (by simp [Load, hparsed, hguard, hs])⟩
  · obtain ⟨added, hres, _, _⟩ := hspec.2 hf
    exact ⟨[] ++ added, by simp [Load, hparsed, hguard, hres]⟩

/-- C9 amended, at a concrete input: the broken AWS account in front of a valid
one. -/
theorem load_aborts_on_build_failure_witness :
    loadConfigFromFile exampleLoadSdk "broken-first.toml"
        = Except.ok (sqliteConfig [brokenAws, envAws] [] [])
    ∧ hasStore (sqliteConfig [brokenAws, envAws] [] []) = true
    ∧ someBuildFails exampleLoadSdk (sqliteConfig [brokenAws, envAws] [] []) = true
    ∧ ∃ err, Load exampleLoadSdk "broken-first.toml" = LoadResult.error err
        ∨ Load exampleLoadSdk "broken-first.toml" = LoadResult.fatal err :=
  ⟨by decide, by decide, by decide,
    (load_aborts_on_build_failure exampleLoadSdk "broken-first.toml"
      (sqliteConfig [brokenAws, envAws] [] []) (by decide) (by decide)).1 (by decide)⟩

end CloudCosts
